/-
Verification of the boundary-layer post-processing core of vtkpytools.

Shallow embedding of:
  * vtkpytools/common.py        getGeometricSeries
  * vtkpytools/bar2vtk/data.py  sampleDataBlockProfile, calcBoundaryLayerStats

Real arithmetic of the Python code is modelled exactly: geometry and
velocities are rationals; the quantities produced by the integrator are
modelled by the type FP, rationals extended with the IEEE special values
nan, +inf and -inf, so that the 0/0 behaviour of the integrator is visible.
Rounding of binary floating point is not modelled; every claim settled here
is about the exact-arithmetic structure of the code.
-/
import Mathlib

/-- A 3D point or vector with rational coordinates. -/
structure Point3 where
  x : ℚ
  y : ℚ
  z : ℚ
deriving DecidableEq

instance : Inhabited Point3 := ⟨⟨0, 0, 0⟩⟩

/-- Floating-point values: exact rationals extended with nan and the two
infinities, enough to model the 0/0 and x/0 behaviour of numpy arithmetic. -/
inductive FP where
  | num : ℚ → FP
  | pinf : FP
  | ninf : FP
  | nan : FP
deriving DecidableEq

def FP.add : FP → FP → FP
  | nan, _ => nan
  | _, nan => nan
  | num a, num b => num (a + b)
  | num _, pinf => pinf
  | num _, ninf => ninf
  | pinf, num _ => pinf
  | ninf, num _ => ninf
  | pinf, pinf => pinf
  | ninf, ninf => ninf
  | pinf, ninf => nan
  | ninf, pinf => nan

def FP.sub : FP → FP → FP
  | nan, _ => nan
  | _, nan => nan
  | num a, num b => num (a - b)
  | num _, pinf => ninf
  | num _, ninf => pinf
  | pinf, num _ => pinf
  | ninf, num _ => ninf
  | pinf, ninf => pinf
  | ninf, pinf => ninf
  | pinf, pinf => nan
  | ninf, ninf => nan

def FP.mul : FP → FP → FP
  | nan, _ => nan
  | _, nan => nan
  | num a, num b => num (a * b)
  | num a, pinf => if a = 0 then nan else if 0 < a then pinf else ninf
  | num a, ninf => if a = 0 then nan else if 0 < a then ninf else pinf
  | pinf, num b => if b = 0 then nan else if 0 < b then pinf else ninf
  | ninf, num b => if b = 0 then nan else if 0 < b then ninf else pinf
  | pinf, pinf => pinf
  | pinf, ninf => ninf
  | ninf, pinf => ninf
  | ninf, ninf => pinf

def FP.div : FP → FP → FP
  | nan, _ => nan
  | _, nan => nan
  | num a, num b =>
      if b = 0 then (if a = 0 then nan else if 0 < a then pinf else ninf)
      else num (a / b)
  | num _, pinf => num 0
  | num _, ninf => num 0
  | pinf, num b => if 0 ≤ b then pinf else ninf
  | ninf, num b => if 0 ≤ b then ninf else pinf
  | pinf, pinf => nan
  | pinf, ninf => nan
  | ninf, pinf => nan
  | ninf, ninf => nan

/-- np.trapz(y, x) over FP samples: sum of (x1-x0)*(y0+y1)/2 over consecutive
pairs.  np.add.reduce associates to the left; in exact arithmetic the
association is irrelevant, we use the right-nested form. -/
def trapzFP : List FP → List ℚ → FP
  | y0 :: y1 :: ys, x0 :: x1 :: xs =>
      FP.add (FP.div (FP.mul (FP.num (x1 - x0)) (FP.add y0 y1)) (FP.num 2))
        (trapzFP (y1 :: ys) (x1 :: xs))
  | _, _ => FP.num 0

/-- np.trapz(y, x) on samples that stay in the rationals. -/
def ratTrapz : List ℚ → List ℚ → ℚ
  | y0 :: y1 :: ys, x0 :: x1 :: xs =>
      (x1 - x0) * (y0 + y1) / 2 + ratTrapz (y1 :: ys) (x1 :: xs)
  | _, _ => 0

/-- The Boundary-Layer Integrator, data.py lines 199-206:
Ue = U[-1]; integrand_displace = 1 - U/Ue;
integrand_mom = integrand_displace * (U/Ue);
delta_displace = trapz(integrand_displace, line_walldists);
delta_mom = trapz(integrand_mom, line_walldists);
Re_theta = delta_mom * Uref / nu. -/
def calcBLpoint (U : List ℚ) (line_walldists : List ℚ) (Uref nu : ℚ) :
    FP × FP × FP :=
  let Ue := U.getLastD 0
  let integrand_displace :=
    U.map (fun u => FP.sub (FP.num 1) (FP.div (FP.num u) (FP.num Ue)))
  let integrand_mom :=
    List.zipWith FP.mul integrand_displace
      (U.map (fun u => FP.div (FP.num u) (FP.num Ue)))
  let delta_displace := trapzFP integrand_displace line_walldists
  let delta_mom := trapzFP integrand_mom line_walldists
  (delta_displace, delta_mom, FP.div (FP.mul delta_mom (FP.num Uref)) (FP.num nu))

theorem fp_add_nan_right (x : FP) : FP.add x FP.nan = FP.nan := by
  cases x <;> rfl

theorem fp_mul_nan_right (x : FP) : FP.mul x FP.nan = FP.nan := by
  cases x <;> rfl

theorem zipWith_map_same {α β γ : Type} (f : β → β → γ) (g h : α → β) :
    ∀ l : List α, List.zipWith f (l.map g) (l.map h) = l.map (fun a => f (g a) (h a)) := by
  intro l
  induction l with
  | nil => rfl
  | cons a t ih => simp [ih]

theorem getLast?_map {α β : Type} (f : α → β) :
    ∀ l : List α, (l.map f).getLast? = l.getLast?.map f := by
  intro l
  induction l with
  | nil => rfl
  | cons a t ih =>
    cases t with
    | nil => rfl
    | cons b t' =>
      simp only [List.map_cons, List.getLast?_cons_cons]
      rw [← List.map_cons]
      exact ih

theorem trapzFP_map_num : ∀ (ys xs : List ℚ),
    trapzFP (ys.map FP.num) xs = FP.num (ratTrapz ys xs) := by
  intro ys
  induction ys with
  | nil => intro xs; cases xs <;> rfl
  | cons y t ih =>
    intro xs
    cases t with
    | nil => cases xs with
      | nil => rfl
      | cons x xs' => cases xs' <;> rfl
    | cons y1 t' =>
      cases xs with
      | nil => rfl
      | cons x0 xs0 =>
        cases xs0 with
        | nil => rfl
        | cons x1 xs1 =>
          have hrec := ih (x1 :: xs1)
          simp only [List.map_cons, trapzFP, ratTrapz]
          rw [List.map_cons] at hrec
          rw [hrec]
          have h2 : ((2 : ℚ) = 0) = False := by norm_num
          simp [FP.add, FP.mul, FP.div, h2]

/-- trapzFP returns nan whenever the last sample is nan and the integration
actually has at least one interval. -/
theorem trapzFP_nan : ∀ (ys : List FP) (xs : List ℚ),
    ys.length = xs.length → 2 ≤ ys.length → ys.getLast? = some FP.nan →
    trapzFP ys xs = FP.nan := by
  intro ys
  induction ys with
  | nil => intro xs _ h2 _; simp at h2
  | cons y t ih =>
    intro xs hlen h2 hlast
    cases t with
    | nil => simp at h2
    | cons y1 t' =>
      cases xs with
      | nil => simp at hlen
      | cons x0 xs0 =>
        cases xs0 with
        | nil => simp at hlen
        | cons x1 xs1 =>
          rw [List.getLast?_cons_cons] at hlast
          simp only [trapzFP]
          cases t' with
          | nil =>
            have hy1 : y1 = FP.nan := by
              simpa using hlast
            subst hy1
            rw [fp_add_nan_right y]
            rw [fp_mul_nan_right]
            simp [FP.div, trapzFP, FP.add]
          | cons y2 t'' =>
            have hrec : trapzFP (y1 :: y2 :: t'') (x1 :: xs1) = FP.nan := by
              apply ih (x1 :: xs1)
              · simpa using hlen
              · simp
              · exact hlast
            rw [hrec, fp_add_nan_right]

theorem ratTrapz_zero : ∀ (ys xs : List ℚ), (∀ y ∈ ys, y = 0) → ratTrapz ys xs = 0 := by
  intro ys
  induction ys with
  | nil => intro xs _; cases xs <;> rfl
  | cons y t ih =>
    intro xs h
    cases t with
    | nil => cases xs with
      | nil => rfl
      | cons x xs' => cases xs' <;> rfl
    | cons y1 t' =>
      cases xs with
      | nil => rfl
      | cons x0 xs0 =>
        cases xs0 with
        | nil => rfl
        | cons x1 xs1 =>
          have hy : y = 0 := h y (by simp)
          have hy1 : y1 = 0 := h y1 (by simp)
          subst hy
          subst hy1
          have hrec : ratTrapz (0 :: t') (x1 :: xs1) = 0 := by
            apply ih
            intro a ha
            exact h a (List.mem_cons_of_mem 0 ha)
          simp only [ratTrapz, hrec]
          ring

theorem getLastD_replicate (c d : ℚ) : ∀ n : ℕ, (List.replicate (n + 1) c).getLastD d = c := by
  intro n
  induction n with
  | zero => rfl
  | succ m ih =>
    rw [List.replicate_succ, List.getLastD_cons]
    exact ih

theorem fp_sub_div_num (Ue : ℚ) (hUe : Ue ≠ 0) (u : ℚ) :
    FP.sub (FP.num 1) (FP.div (FP.num u) (FP.num Ue)) = FP.num (1 - u / Ue) := by
  simp [FP.div, FP.sub, hUe]

theorem fp_mom_num (Ue : ℚ) (hUe : Ue ≠ 0) (u : ℚ) :
    FP.mul (FP.sub (FP.num 1) (FP.div (FP.num u) (FP.num Ue)))
      (FP.div (FP.num u) (FP.num Ue)) = FP.num ((1 - u / Ue) * (u / Ue)) := by
  simp [FP.div, FP.sub, FP.mul, hUe]

/-- With a non-zero edge velocity and non-zero viscosity, the FP computation of
the integrator coincides with the exact rational trapezoidal integrals of the
two integrands. -/
theorem calcBLpoint_eq_ratTrapz (U d : List ℚ) (Uref nu : ℚ)
    (hUe : U.getLastD 0 ≠ 0) (hnu : nu ≠ 0) :
    calcBLpoint U d Uref nu =
      (FP.num (ratTrapz (U.map (fun u => 1 - u / U.getLastD 0)) d),
       FP.num (ratTrapz (U.map (fun u => (1 - u / U.getLastD 0) * (u / U.getLastD 0))) d),
       FP.num (ratTrapz (U.map (fun u => (1 - u / U.getLastD 0) * (u / U.getLastD 0))) d * Uref / nu)) := by
  simp only [calcBLpoint]
  rw [zipWith_map_same]
  have hf1 : (fun u => FP.sub (FP.num 1) (FP.div (FP.num u) (FP.num (U.getLastD 0)))) =
      (fun u : ℚ => FP.num (1 - u / U.getLastD 0)) :=
    funext (fun u => fp_sub_div_num (U.getLastD 0) hUe u)
  have hf2 : (fun u => FP.mul (FP.sub (FP.num 1) (FP.div (FP.num u) (FP.num (U.getLastD 0))))
        (FP.div (FP.num u) (FP.num (U.getLastD 0)))) =
      (fun u : ℚ => FP.num ((1 - u / U.getLastD 0) * (u / U.getLastD 0))) :=
    funext (fun u => fp_mom_num (U.getLastD 0) hUe u)
  rw [hf1, hf2]
  have hm1 : U.map (fun u : ℚ => FP.num (1 - u / U.getLastD 0)) =
      (U.map (fun u : ℚ => 1 - u / U.getLastD 0)).map FP.num := by
    rw [List.map_map]; rfl
  have hm2 : U.map (fun u : ℚ => FP.num ((1 - u / U.getLastD 0) * (u / U.getLastD 0))) =
      (U.map (fun u : ℚ => (1 - u / U.getLastD 0) * (u / U.getLastD 0))).map FP.num := by
    rw [List.map_map]; rfl
  rw [hm1, hm2, trapzFP_map_num, trapzFP_map_num]
  simp [FP.mul, FP.div, hnu]

/-- Claim C3: the Boundary-Layer Integrator returns the trapezoidal integral of
1 - U/Ue for delta_displace, of (1 - U/Ue)(U/Ue) for delta_mom, and
Re_theta = delta_mom * Uref / nu; a uniform profile U = Ue gives
delta_displace = delta_mom = 0. -/
theorem calcBLpoint_spec (U d : List ℚ) (Uref nu : ℚ)
    (hUe : U.getLastD 0 ≠ 0) (hnu : nu ≠ 0) :
    calcBLpoint U d Uref nu =
      (FP.num (ratTrapz (U.map (fun u => 1 - u / U.getLastD 0)) d),
       FP.num (ratTrapz (U.map (fun u => (1 - u / U.getLastD 0) * (u / U.getLastD 0))) d),
       FP.num (ratTrapz (U.map (fun u => (1 - u / U.getLastD 0) * (u / U.getLastD 0))) d * Uref / nu))
    ∧ ∀ (n : ℕ) (c : ℚ), c ≠ 0 →
        (calcBLpoint (List.replicate (n + 1) c) d Uref nu).1 = FP.num 0 ∧
        (calcBLpoint (List.replicate (n + 1) c) d Uref nu).2.1 = FP.num 0 := by
  constructor
  · exact calcBLpoint_eq_ratTrapz U d Uref nu hUe hnu
  · intro n c hc
    have hlast : (List.replicate (n + 1) c).getLastD 0 = c := getLastD_replicate c 0 n
    have h := calcBLpoint_eq_ratTrapz (List.replicate (n + 1) c) d Uref nu
      (by rw [hlast]; exact hc) hnu
    rw [h]
    have hz1 : ratTrapz ((List.replicate (n + 1) c).map
        (fun u => 1 - u / (List.replicate (n + 1) c).getLastD 0)) d = 0 := by
      apply ratTrapz_zero
      intro y hy
      rw [List.mem_map] at hy
      obtain ⟨u, hu, rfl⟩ := hy
      have : u = c := List.eq_of_mem_replicate hu
      rw [this, hlast, div_self hc]
      ring
    have hz2 : ratTrapz ((List.replicate (n + 1) c).map
        (fun u => (1 - u / (List.replicate (n + 1) c).getLastD 0) *
          (u / (List.replicate (n + 1) c).getLastD 0))) d = 0 := by
      apply ratTrapz_zero
      intro y hy
      rw [List.mem_map] at hy
      obtain ⟨u, hu, rfl⟩ := hy
      have : u = c := List.eq_of_mem_replicate hu
      rw [this, hlast, div_self hc]
      ring
    exact ⟨by rw [hz1], by rw [hz2]⟩

theorem calcBLpoint_spec_witness :
    (([(1 : ℚ)/2, 1].getLastD 0 ≠ 0) ∧ ((1 : ℚ) ≠ 0)) ∧
    (calcBLpoint [(1 : ℚ)/2, 1] [0, 1] 1 1 =
      (FP.num (ratTrapz ([(1 : ℚ)/2, 1].map (fun u => 1 - u / [(1 : ℚ)/2, 1].getLastD 0)) [0, 1]),
       FP.num (ratTrapz ([(1 : ℚ)/2, 1].map
         (fun u => (1 - u / [(1 : ℚ)/2, 1].getLastD 0) * (u / [(1 : ℚ)/2, 1].getLastD 0))) [0, 1]),
       FP.num (ratTrapz ([(1 : ℚ)/2, 1].map
         (fun u => (1 - u / [(1 : ℚ)/2, 1].getLastD 0) * (u / [(1 : ℚ)/2, 1].getLastD 0))) [0, 1] * 1 / 1))
    ∧ ∀ (n : ℕ) (c : ℚ), c ≠ 0 →
        (calcBLpoint (List.replicate (n + 1) c) [0, 1] 1 1).1 = FP.num 0 ∧
        (calcBLpoint (List.replicate (n + 1) c) [0, 1] 1 1).2.1 = FP.num 0) :=
  ⟨⟨by norm_num, by norm_num⟩,
    calcBLpoint_spec [(1 : ℚ)/2, 1] [0, 1] 1 1 (by norm_num) (by norm_num)⟩

/-- Claim C4: a profile whose edge velocity is exactly 0 yields nan for
delta_mom and Re_theta; the integrator returns a value, it cannot raise. -/
theorem calcBLpoint_nan (U d : List ℚ) (Uref nu : ℚ)
    (hlen : U.length = d.length) (h2 : 2 ≤ U.length) (hUe : U.getLastD 0 = 0) :
    (calcBLpoint U d Uref nu).2.1 = FP.nan ∧ (calcBLpoint U d Uref nu).2.2 = FP.nan := by
  have hUne : U ≠ [] := by
    intro h
    rw [h] at h2
    simp at h2
  obtain ⟨a, ha⟩ : ∃ a, U.getLast? = some a := by
    cases hU : U.getLast? with
    | none => exact absurd (List.getLast?_eq_none_iff.mp hU) hUne
    | some a => exact ⟨a, rfl⟩
  have ha0 : a = 0 := by
    have hd := List.getLastD_eq_getLast? (0 : ℚ) U
    rw [ha] at hd
    rw [hUe] at hd
    simpa using hd.symm
  subst ha0
  have hmom : (calcBLpoint U d Uref nu).2.1 = FP.nan := by
    simp only [calcBLpoint, hUe]
    rw [zipWith_map_same]
    apply trapzFP_nan
    · rw [List.length_map]; exact hlen
    · rw [List.length_map]; exact h2
    · rw [getLast?_map, ha]
      have : FP.mul (FP.sub (FP.num 1) (FP.div (FP.num 0) (FP.num 0)))
          (FP.div (FP.num 0) (FP.num 0)) = FP.nan := by decide
      simp [this]
  refine ⟨hmom, ?_⟩
  have hre : (calcBLpoint U d Uref nu).2.2 =
      FP.div (FP.mul ((calcBLpoint U d Uref nu).2.1) (FP.num Uref)) (FP.num nu) := rfl
  rw [hre, hmom]
  rfl

theorem calcBLpoint_nan_witness :
    (([(1 : ℚ), 0].length = [(0 : ℚ), 1].length) ∧ (2 ≤ [(1 : ℚ), 0].length) ∧
      ([(1 : ℚ), 0].getLastD 0 = 0)) ∧
    ((calcBLpoint [(1 : ℚ), 0] [0, 1] 1 1).2.1 = FP.nan ∧
     (calcBLpoint [(1 : ℚ), 0] [0, 1] 1 1).2.2 = FP.nan) :=
  ⟨⟨by decide, by decide, by decide⟩,
    calcBLpoint_nan [(1 : ℚ), 0] [0, 1] 1 1 (by decide) (by decide) (by decide)⟩

/-- The nudge increment, data.py line 169: nudge_increment = 1E-8. -/
def nudge_increment : ℚ := 1 / 100000000

/-- Degeneracy test, data.py line 178: np.abs(sample_line[Velocity]).max() < 1E-8,
i.e. every component of every sampled velocity is below 1E-8 in magnitude. -/
def isDegenerate (vels : List Point3) : Bool :=
  vels.all (fun v => decide (max (abs v.x) (max (abs v.y) (abs v.z)) < (1 : ℚ) / 100000000))

/-- One nudge update, data.py lines 187-190: for even attempt,
nudge_size = (attempt/2)*nudge_increment - nudge_size; for odd attempt,
nudge_size = -ceil(attempt/2)*nudge_increment - nudge_size, where
ceil(attempt/2) = (attempt+1)/2 for odd attempt. -/
def nudgeDelta (attempt : ℕ) (nudge_size inc : ℚ) : ℚ :=
  if attempt % 2 = 0 then (attempt : ℚ) / 2 * inc - nudge_size
  else -(((attempt : ℚ) + 1) / 2) * inc - nudge_size

/-- The successive values of the nudge_size variable, attempt by attempt. -/
def nudgeDeltas (inc : ℚ) : ℕ → ℚ
  | 0 => 0
  | k + 1 => nudgeDelta (k + 1) (nudgeDeltas inc k) inc

/-- The cumulative x-offset applied to the sample line after k attempts
(data.py line 191 adds each new nudge_size onto sample_points[:,0]). -/
def cumOffset (inc : ℚ) : ℕ → ℚ
  | 0 => 0
  | k + 1 => cumOffset inc k + nudgeDeltas inc (k + 1)

inductive NudgeOutcome where
  | success (attempts : ℕ) (offset : ℚ) (vels : List Point3)
  | exhausted (attempts : ℕ) (lastNudge : ℚ) (offset : ℚ) (vels : List Point3)
deriving DecidableEq

def NudgeOutcome.attempts : NudgeOutcome → ℕ
  | success a _ _ => a
  | exhausted a _ _ _ => a

def NudgeOutcome.offset : NudgeOutcome → ℚ
  | success _ c _ => c
  | exhausted _ _ c _ => c

def NudgeOutcome.vels : NudgeOutcome → List Point3
  | success _ _ v => v
  | exhausted _ _ _ v => v

def NudgeOutcome.isExhausted : NudgeOutcome → Bool
  | success _ _ _ => false
  | exhausted _ _ _ _ => true

/-- The while loop of data.py lines 171-197.  The mutable sample_points array
is represented by the cumulative x-offset added to the original line; the
sampling of the grid along the shifted line is the abstract function sampleAt.
Fuel 9 together with the attempt == 8 break makes the fuel-0 branch dead. -/
def nudgeLoop (sampleAt : ℚ → List Point3) : ℕ → ℕ → ℚ → ℚ → NudgeOutcome
  | 0, attempt, nudge_size, offset => .exhausted attempt nudge_size offset (sampleAt offset)
  | fuel + 1, attempt, nudge_size, offset =>
      if isDegenerate (sampleAt offset) = true then
        if attempt = 8 then .exhausted attempt nudge_size offset (sampleAt offset)
        else
          nudgeLoop sampleAt fuel (attempt + 1)
            (nudgeDelta (attempt + 1) nudge_size nudge_increment)
            (offset + nudgeDelta (attempt + 1) nudge_size nudge_increment)
      else .success attempt offset (sampleAt offset)

/-- The Nudge-Retry Engine: run the loop from zero attempts and zero offset. -/
def nudgeRetry (sampleAt : ℚ → List Point3) : NudgeOutcome :=
  nudgeLoop sampleAt 9 0 0 0

/-- Nudging shifts the sample line along the first spatial axis only
(data.py line 191: sample_points[:,0] += nudge_size). -/
def shiftX (pts : List Point3) (c : ℚ) : List Point3 :=
  pts.map (fun p => ⟨p.x + c, p.y, p.z⟩)

/-- The Sample Line Builder, data.py lines 162-164:
sample_points = line_walldists[:, None] * wallnormal + point. -/
def buildSamplePoints (line_walldists : List ℚ) (wallnormal point : Point3) : List Point3 :=
  line_walldists.map (fun dist =>
    ⟨dist * wallnormal.x + point.x, dist * wallnormal.y + point.y, dist * wallnormal.z + point.z⟩)

/-- Selection of the velocity component, data.py lines 199-200. -/
def componentAt (vc : Fin 3) (v : Point3) : ℚ :=
  if vc.val = 0 then v.x else if vc.val = 1 then v.y else v.z

/-- Per-wall-point pipeline: whatever the retry outcome, its (possibly
degenerate) profile is handed to the integrator (data.py lines 199-206 run
unconditionally after the loop, also after the break on line 183). -/
def processPoint (sampleAt : ℚ → List Point3) (line_walldists : List ℚ)
    (vc : Fin 3) (Uref nu : ℚ) : FP × FP × FP :=
  calcBLpoint (((nudgeRetry sampleAt).vels).map (componentAt vc)) line_walldists Uref nu

/-- Claim C1, counterexample: the cumulative offsets actually explored start
with -eps (attempt 1) and reach -3*eps at attempt 3, not the +eps, -eps,
+2*eps, -2*eps sequence stated in the claim (under either reading of the
correction semantics). -/
theorem nudge_offsets_counterexample :
    cumOffset nudge_increment 1 = -nudge_increment ∧
    cumOffset nudge_increment 1 ≠ nudge_increment ∧
    cumOffset nudge_increment 3 = -3 * nudge_increment ∧
    cumOffset nudge_increment 3 ≠ 2 * nudge_increment ∧
    cumOffset nudge_increment 3 ≠ -2 * nudge_increment := by
  refine ⟨?_, ?_, ?_, ?_, ?_⟩ <;>
    norm_num [cumOffset, nudgeDeltas, nudgeDelta, nudge_increment]

/-- A sampler that is degenerate at every offset drives the loop through all
eight attempts and out at the exhausted break. -/
theorem nudgeRetry_const_degenerate (vels : List Point3)
    (hdeg : isDegenerate vels = true) :
    nudgeRetry (fun _ => vels) =
      NudgeOutcome.exhausted 8 (nudgeDeltas nudge_increment 8)
        (cumOffset nudge_increment 8) vels := by
  norm_num [nudgeRetry, nudgeLoop, hdeg, cumOffset, nudgeDeltas, nudgeDelta,
    nudge_increment]

/-- Claim C1 (amended): each attempt nudges only along the first spatial axis
by nudgeDelta, the signed magnitude minus the previous nudge_size; the
resulting cumulative offsets explored are -eps, +eps, -3*eps, +3*eps, -6*eps,
+6*eps, -10*eps, +10*eps, and a fully degenerate point walks through them and
ends exhausted at the eighth. -/
theorem nudge_cumulative_offsets (inc : ℚ) (vels : List Point3)
    (hdeg : isDegenerate vels = true) :
    ((List.range 8).map (fun k => cumOffset inc (k + 1))) =
      [-inc, inc, -3 * inc, 3 * inc, -6 * inc, 6 * inc, -10 * inc, 10 * inc]
    ∧ nudgeRetry (fun _ => vels) =
        NudgeOutcome.exhausted 8 (nudgeDeltas nudge_increment 8)
          (cumOffset nudge_increment 8) vels
    ∧ ∀ (base : List Point3) (c : ℚ),
        (shiftX base c).map Point3.y = base.map Point3.y ∧
        (shiftX base c).map Point3.z = base.map Point3.z := by
  refine ⟨?_, ?_, ?_⟩
  · norm_num [List.range_succ, cumOffset, nudgeDeltas, nudgeDelta]
    ring_nf
    norm_num
  · exact nudgeRetry_const_degenerate vels hdeg
  · intro base c
    constructor <;> simp [shiftX, List.map_map]

/-- One all-zero sampled velocity: degenerate under the 1E-8 test. -/
def zeroVels : List Point3 := [⟨0, 0, 0⟩]

theorem nudge_cumulative_offsets_witness :
    (isDegenerate zeroVels = true) ∧
    (((List.range 8).map (fun k => cumOffset 1 (k + 1))) =
      [-1, 1, -3 * 1, 3 * 1, -6 * 1, 6 * 1, -10 * 1, 10 * 1]
    ∧ nudgeRetry (fun _ => zeroVels) =
        NudgeOutcome.exhausted 8 (nudgeDeltas nudge_increment 8)
          (cumOffset nudge_increment 8) zeroVels
    ∧ ∀ (base : List Point3) (c : ℚ),
        (shiftX base c).map Point3.y = base.map Point3.y ∧
        (shiftX base c).map Point3.z = base.map Point3.z) :=
  ⟨by norm_num [isDegenerate, zeroVels],
    nudge_cumulative_offsets 1 zeroVels (by norm_num [isDegenerate, zeroVels])⟩

/-- The loop leaves either successfully with the attempt counter it reached, or
exhausted with the counter at exactly 8 and a degenerate profile in hand. -/
theorem nudgeLoop_bounded (sampleAt : ℚ → List Point3) : ∀ (fuel attempt : ℕ) (ns c : ℚ),
    9 ≤ fuel + attempt → attempt ≤ 8 →
    (∃ a c' v, nudgeLoop sampleAt fuel attempt ns c = .success a c' v ∧ a ≤ 8)
    ∨ (∃ s c' v, nudgeLoop sampleAt fuel attempt ns c = .exhausted 8 s c' v ∧
        isDegenerate v = true) := by
  intro fuel
  induction fuel with
  | zero => intro attempt ns c hf ha; omega
  | succ f ih =>
    intro attempt ns c hf ha
    by_cases hd : isDegenerate (sampleAt c) = true
    · by_cases h8 : attempt = 8
      · right
        subst h8
        exact ⟨ns, c, sampleAt c, by rw [nudgeLoop, if_pos hd, if_pos rfl], hd⟩
      · have hrec := ih (attempt + 1) (nudgeDelta (attempt + 1) ns nudge_increment)
          (c + nudgeDelta (attempt + 1) ns nudge_increment) (by omega) (by omega)
        rw [nudgeLoop, if_pos hd, if_neg h8]
        exact hrec
    · left
      exact ⟨attempt, c, sampleAt c, by rw [nudgeLoop, if_neg hd], ha⟩

/-- Claim C2: the Nudge-Retry Engine performs at most 8 retry attempts; when it
stops exhausted the attempt counter is exactly 8, the profile in hand is still
degenerate (the warning data, index and last nudge size, are carried by the
exhausted outcome) and the pipeline goes on to integrate that degenerate
profile instead of raising. -/
theorem nudge_budget_bounded (sampleAt : ℚ → List Point3) :
    (∃ a c v, nudgeRetry sampleAt = .success a c v ∧ a ≤ 8)
    ∨ (∃ s c v, nudgeRetry sampleAt = .exhausted 8 s c v ∧ isDegenerate v = true ∧
        ∀ (line_walldists : List ℚ) (vc : Fin 3) (Uref nu : ℚ),
          processPoint sampleAt line_walldists vc Uref nu =
            calcBLpoint (v.map (componentAt vc)) line_walldists Uref nu) := by
  rcases nudgeLoop_bounded sampleAt 9 0 0 0 (by omega) (by omega) with
    ⟨a, c, v, h, ha⟩ | ⟨s, c, v, h, hv⟩
  · left
    exact ⟨a, c, v, h, ha⟩
  · right
    refine ⟨s, c, v, h, hv, ?_⟩
    intro d vc Uref nu
    have hr : nudgeRetry sampleAt = .exhausted 8 s c v := h
    unfold processPoint
    rw [hr]
    rfl

/-- Claim C9: the Nudge-Retry Engine is a pure function of its inputs, so two
invocations on identical inputs agree on attempt count and cumulative offset. -/
theorem nudgeRetry_deterministic (sampleAt : ℚ → List Point3) (r1 r2 : NudgeOutcome)
    (h1 : r1 = nudgeRetry sampleAt) (h2 : r2 = nudgeRetry sampleAt) :
    r1.attempts = r2.attempts ∧ r1.offset = r2.offset := by
  subst h1
  subst h2
  exact ⟨rfl, rfl⟩

def emptySampler : ℚ → List Point3 := fun _ => []

theorem nudgeRetry_deterministic_witness :
    (nudgeRetry emptySampler = nudgeRetry emptySampler) ∧
    ((nudgeRetry emptySampler).attempts = (nudgeRetry emptySampler).attempts ∧
     (nudgeRetry emptySampler).offset = (nudgeRetry emptySampler).offset) :=
  ⟨rfl, nudgeRetry_deterministic emptySampler (nudgeRetry emptySampler)
    (nudgeRetry emptySampler) rfl rfl⟩

/-- Names of the point-data fields involved: the three the code appends
(data.py lines 216-218) and the three the specification announces. -/
inductive FieldName where
  | delta_displace
  | delta_mom
  | Re_theta
  | DisplacementThickness
  | MomentumThickness
  | ReThetaMomentum
deriving DecidableEq

/-- Python exceptions reachable in the embedded functions. -/
inductive PyErr where
  | keyErrorNormals
  | runtimeErrorNormals
  | runtimeErrorCutter
  | unboundLocalSampleLine
deriving DecidableEq

/-- The wall PolyData: ordered points, the optional Normals point field, and
the named scalar point fields attached to it. -/
structure WallObj where
  points : List Point3
  normals : Option (List Point3)
  fields : List (FieldName × List FP)

/-- The vtm MultiBlock: the wall object and the volumetric grid, the latter
abstracted to its interpolation behaviour (pyvista sample: a velocity vector
for each query point, zeros outside the domain). -/
structure DataBlock where
  wall : WallObj
  grid : List Point3 → List Point3

/-- The per-point loop of calcBoundaryLayerStats, data.py lines 160-206.
Accessing the Normals field happens inside the loop body (line 161), so it can
only fail once at least one point is iterated over. -/
def statsForPoints (grid : List Point3 → List Point3) (normals : Option (List Point3))
    (line_walldists : List ℚ) (vc : Fin 3) (Uref nu : ℚ) :
    List Point3 → ℕ → Except PyErr (List (FP × FP × FP))
  | [], _ => .ok []
  | point :: rest, i =>
    match normals with
    | none => .error PyErr.keyErrorNormals
    | some ns =>
      let wallnormal := ns.getD i ⟨0, 0, 0⟩
      let base := buildSamplePoints line_walldists wallnormal point
      let out := nudgeRetry (fun c => grid (shiftX base c))
      let s := calcBLpoint ((out.vels).map (componentAt vc)) line_walldists Uref nu
      match statsForPoints grid normals line_walldists vc Uref nu rest (i + 1) with
      | .error e => .error e
      | .ok l => .ok (s :: l)

/-- The Surface Aggregator, data.py lines 150-220: run the pipeline for every
wall point and append the three arrays onto the wall as the fields
delta_displace, delta_mom and Re_theta (lines 216-218). -/
def calcBoundaryLayerStats (db : DataBlock) (line_walldists : List ℚ)
    (vc : Fin 3) (Uref nu : ℚ) : Except PyErr DataBlock :=
  match statsForPoints db.grid db.wall.normals line_walldists vc Uref nu db.wall.points 0 with
  | .error e => .error e
  | .ok stats =>
    .ok { db with wall := { db.wall with fields := db.wall.fields ++
        [(FieldName.delta_displace, stats.map (fun s => s.1)),
         (FieldName.delta_mom, stats.map (fun s => s.2.1)),
         (FieldName.Re_theta, stats.map (fun s => s.2.2))] } }

def resultFieldNames : Except PyErr DataBlock → List FieldName
  | .ok db => db.wall.fields.map (fun f => f.1)
  | .error _ => []

def resultFieldVals : Except PyErr DataBlock → List (List FP)
  | .ok db => db.wall.fields.map (fun f => f.2)
  | .error _ => []

def exceptOk {ε α : Type} : Except ε α → Bool
  | .ok _ => true
  | .error _ => false

/-- A sampled line: its points, the interpolated velocities, and the
WallDistance field set on it (data.py lines 124-126). -/
structure SampleLineObj where
  points : List Point3
  velocity : List Point3
  wallDistance : List ℚ
deriving DecidableEq

/-- sampleDataBlockProfile, data.py lines 109-148.  The pointid branch is
guarded by the Python truthiness of the integer (line 117), the cutter branch
by the presence of a cutter object (line 128); if neither branch runs, line
148 returns the never-assigned local sample_line, an UnboundLocalError.  The
cutter object is abstracted to the intersection result it produces: a list of
intersection points paired with their interpolated normals. -/
def sampleDataBlockProfile (db : DataBlock) (line_walldists : List ℚ)
    (pointid : Option ℕ) (cutterObj : Option (List (Point3 × Point3))) :
    Except PyErr SampleLineObj :=
  match db.wall.normals with
  | none => .error PyErr.runtimeErrorNormals
  | some normals =>
    let fromPointid : Option SampleLineObj :=
      match pointid with
      | some i =>
        if i = 0 then none
        else
          let sample_points := buildSamplePoints line_walldists (normals.getD i ⟨0, 0, 0⟩)
            (db.wall.points.getD i ⟨0, 0, 0⟩)
          some ⟨sample_points, db.grid sample_points, line_walldists⟩
      | none => none
    match cutterObj with
    | some cut =>
      if cut.length = 1 then
        let sample_points := buildSamplePoints line_walldists (cut.getD 0 default).2
          (cut.getD 0 default).1
        .ok ⟨sample_points, db.grid sample_points, line_walldists⟩
      else .error PyErr.runtimeErrorCutter
    | none =>
      match fromPointid with
      | some sl => .ok sl
      | none => .error PyErr.unboundLocalSampleLine

/-- Claim C10: with no cutter object, pointid = 0 falls through both branches
(integer 0 is falsy), so the function fails with an UnboundLocalError instead
of sampling wall point 0, while every pointid >= 1 is sampled normally. -/
theorem sampleDataBlockProfile_pointid (db : DataBlock) (line_walldists : List ℚ)
    (ns : List Point3) (h : db.wall.normals = some ns) :
    sampleDataBlockProfile db line_walldists (some 0) none =
      .error PyErr.unboundLocalSampleLine
    ∧ ∀ i : ℕ, 1 ≤ i →
        sampleDataBlockProfile db line_walldists (some i) none =
          .ok ⟨buildSamplePoints line_walldists (ns.getD i ⟨0, 0, 0⟩)
                 (db.wall.points.getD i ⟨0, 0, 0⟩),
               db.grid (buildSamplePoints line_walldists (ns.getD i ⟨0, 0, 0⟩)
                 (db.wall.points.getD i ⟨0, 0, 0⟩)),
               line_walldists⟩ := by
  constructor
  · simp [sampleDataBlockProfile, h]
  · intro i hi
    have hne : i ≠ 0 := by omega
    simp [sampleDataBlockProfile, h, hne]

def exDB10 : DataBlock :=
  ⟨⟨[⟨0, 0, 0⟩, ⟨1, 0, 0⟩], some [⟨0, 0, 1⟩, ⟨0, 1, 0⟩], []⟩, fun pts => pts⟩

theorem sampleDataBlockProfile_pointid_witness :
    (exDB10.wall.normals = some [⟨0, 0, 1⟩, ⟨0, 1, 0⟩]) ∧
    (sampleDataBlockProfile exDB10 [0, 1] (some 0) none =
      .error PyErr.unboundLocalSampleLine
    ∧ ∀ i : ℕ, 1 ≤ i →
        sampleDataBlockProfile exDB10 [0, 1] (some i) none =
          .ok ⟨buildSamplePoints [0, 1] ([(⟨0, 0, 1⟩ : Point3), ⟨0, 1, 0⟩].getD i ⟨0, 0, 0⟩)
                 (exDB10.wall.points.getD i ⟨0, 0, 0⟩),
               exDB10.grid (buildSamplePoints [0, 1] ([(⟨0, 0, 1⟩ : Point3), ⟨0, 1, 0⟩].getD i ⟨0, 0, 0⟩)
                 (exDB10.wall.points.getD i ⟨0, 0, 0⟩)),
               [0, 1]⟩) :=
  ⟨rfl, sampleDataBlockProfile_pointid exDB10 [0, 1] [⟨0, 0, 1⟩, ⟨0, 1, 0⟩] rfl⟩

/-- Claim C7 (amended): when the wall lacks the Normals field and has at least
one point, calcBoundaryLayerStats fails at the first normal lookup inside the
loop, before any sampling or integration for that point. -/
theorem calcBoundaryLayerStats_missing_normals (db : DataBlock) (d : List ℚ)
    (vc : Fin 3) (Uref nu : ℚ) (hn : db.wall.normals = none)
    (hp : db.wall.points ≠ []) :
    calcBoundaryLayerStats db d vc Uref nu = .error PyErr.keyErrorNormals := by
  obtain ⟨p, rest, hpr⟩ := List.exists_cons_of_ne_nil hp
  unfold calcBoundaryLayerStats
  rw [hn, hpr]
  rfl

def exDB7b : DataBlock := ⟨⟨[⟨0, 0, 0⟩], none, []⟩, fun pts => pts⟩

theorem calcBoundaryLayerStats_missing_normals_witness :
    ((exDB7b.wall.normals = none) ∧ (exDB7b.wall.points ≠ [])) ∧
    calcBoundaryLayerStats exDB7b [0, 1] 0 1 1 = .error PyErr.keyErrorNormals :=
  ⟨⟨rfl, by simp [exDB7b]⟩,
    calcBoundaryLayerStats_missing_normals exDB7b [0, 1] 0 1 1 rfl (by simp [exDB7b])⟩

def exDB7 : DataBlock := ⟨⟨[], none, []⟩, fun pts => pts⟩

/-- Claim C7, counterexample: a wall with no points and no Normals field makes
calcBoundaryLayerStats complete successfully; there is no validation of the
normal field before the per-point loop, so the promised configuration error is
never raised. -/
theorem calcBoundaryLayerStats_no_precheck_counterexample :
    exceptOk (calcBoundaryLayerStats exDB7 [0, 1] 0 1 1) = true ∧
    resultFieldNames (calcBoundaryLayerStats exDB7 [0, 1] 0 1 1) =
      [FieldName.delta_displace, FieldName.delta_mom, FieldName.Re_theta] := by
  exact ⟨rfl, rfl⟩

theorem statsForPoints_length (grid : List Point3 → List Point3)
    (normals : Option (List Point3)) (d : List ℚ) (vc : Fin 3) (Uref nu : ℚ) :
    ∀ (pts : List Point3) (i : ℕ) (l : List (FP × FP × FP)),
      statsForPoints grid normals d vc Uref nu pts i = .ok l →
      l.length = pts.length := by
  intro pts
  induction pts with
  | nil =>
    intro i l h
    simp only [statsForPoints] at h
    cases h
    rfl
  | cons p rest ih =>
    intro i l h
    simp only [statsForPoints] at h
    cases normals with
    | none => simp at h
    | some ns =>
      simp only at h
      cases hrec : statsForPoints grid (some ns) d vc Uref nu rest (i + 1) with
      | error e => rw [hrec] at h; simp at h
      | ok l' =>
        rw [hrec] at h
        simp only at h
        cases h
        have := ih (i + 1) l' hrec
        simp [this]

/-- Claim C8 (amended): a successful run appends exactly three new scalar
fields named delta_displace, delta_mom and Re_theta (not the names the
specification announces), each aligned 1:1 with the point ordering. -/
theorem calcBoundaryLayerStats_fields (db : DataBlock) (d : List ℚ) (vc : Fin 3)
    (Uref nu : ℚ) (db' : DataBlock)
    (h : calcBoundaryLayerStats db d vc Uref nu = .ok db') :
    db'.wall.fields.map (fun f => f.1) =
      db.wall.fields.map (fun f => f.1) ++
        [FieldName.delta_displace, FieldName.delta_mom, FieldName.Re_theta]
    ∧ (db'.wall.fields.drop db.wall.fields.length).map (fun f => f.2.length) =
        [db.wall.points.length, db.wall.points.length, db.wall.points.length] := by
  unfold calcBoundaryLayerStats at h
  cases hs : statsForPoints db.grid db.wall.normals d vc Uref nu db.wall.points 0 with
  | error e => rw [hs] at h; simp at h
  | ok stats =>
    rw [hs] at h
    simp only at h
    cases h
    have hlen := statsForPoints_length db.grid db.wall.normals d vc Uref nu
      db.wall.points 0 stats hs
    constructor
    · simp
    · have hdrop : ∀ (l1 l2 : List (FieldName × List FP)),
          (l1 ++ l2).drop l1.length = l2 := fun l1 l2 => List.drop_left l1 l2
      simp only [hdrop]
      simp [hlen]

def exDB8r : DataBlock :=
  ⟨⟨[], none, [(FieldName.delta_displace, []), (FieldName.delta_mom, []),
    (FieldName.Re_theta, [])]⟩, fun pts => pts⟩

theorem calcBoundaryLayerStats_fields_witness :
    (calcBoundaryLayerStats exDB7 [0, 1] 0 1 1 = .ok exDB8r) ∧
    (exDB8r.wall.fields.map (fun f => f.1) =
      exDB7.wall.fields.map (fun f => f.1) ++
        [FieldName.delta_displace, FieldName.delta_mom, FieldName.Re_theta]
    ∧ (exDB8r.wall.fields.drop exDB7.wall.fields.length).map (fun f => f.2.length) =
        [exDB7.wall.points.length, exDB7.wall.points.length, exDB7.wall.points.length]) :=
  ⟨rfl, calcBoundaryLayerStats_fields exDB7 [0, 1] 0 1 1 exDB8r rfl⟩

/-- A grid whose interpolation returns the constant tiny velocity 1E-9 at
every query point: always degenerate under the 1E-8 test, but with an edge
velocity that is not exactly zero. -/
def exGrid8 : List Point3 → List Point3 :=
  fun pts => pts.map (fun _ => ⟨1 / 1000000000, 0, 0⟩)

def exDB8 : DataBlock := ⟨⟨[⟨0, 0, 0⟩], some [⟨0, 0, 1⟩], []⟩, exGrid8⟩

theorem exGrid8_degenerate :
    isDegenerate [(⟨1 / 1000000000, 0, 0⟩ : Point3), ⟨1 / 1000000000, 0, 0⟩] = true := by
  norm_num [isDegenerate, abs]

theorem exDB8_nudge :
    nudgeRetry (fun c => exGrid8 (shiftX (buildSamplePoints [0, 1] ⟨0, 0, 1⟩ ⟨0, 0, 0⟩) c)) =
      NudgeOutcome.exhausted 8 (nudgeDeltas nudge_increment 8)
        (cumOffset nudge_increment 8)
        [⟨1 / 1000000000, 0, 0⟩, ⟨1 / 1000000000, 0, 0⟩] := by
  have h1 : (fun c : ℚ => exGrid8 (shiftX (buildSamplePoints [0, 1] ⟨0, 0, 1⟩ ⟨0, 0, 0⟩) c)) =
      (fun _ : ℚ => [(⟨1 / 1000000000, 0, 0⟩ : Point3), ⟨1 / 1000000000, 0, 0⟩]) := rfl
  rw [h1]
  exact nudgeRetry_const_degenerate _ exGrid8_degenerate

/-- Claim C8, counterexample: on a wall point whose nudge budget is exhausted,
the appended fields are named delta_displace, delta_mom and Re_theta, not
DisplacementThickness, MomentumThickness and ReThetaMomentum, and the value
stored at the exhausted index is 0, not NaN (the degenerate edge velocity 1E-9
is small but non-zero). -/
theorem calcBoundaryLayerStats_names_counterexample :
    resultFieldNames (calcBoundaryLayerStats exDB8 [0, 1] 0 1 1) =
      [FieldName.delta_displace, FieldName.delta_mom, FieldName.Re_theta]
    ∧ resultFieldNames (calcBoundaryLayerStats exDB8 [0, 1] 0 1 1) ≠
      [FieldName.DisplacementThickness, FieldName.MomentumThickness,
       FieldName.ReThetaMomentum]
    ∧ resultFieldVals (calcBoundaryLayerStats exDB8 [0, 1] 0 1 1) =
      [[FP.num 0], [FP.num 0], [FP.num 0]]
    ∧ (nudgeRetry (fun c => exGrid8 (shiftX (buildSamplePoints [0, 1] ⟨0, 0, 1⟩ ⟨0, 0, 0⟩) c))).isExhausted = true
    ∧ FP.num 0 ≠ FP.nan := by
  have hstats : statsForPoints exDB8.grid exDB8.wall.normals [0, 1] 0 1 1
      exDB8.wall.points 0 = .ok [(FP.num 0, FP.num 0, FP.num 0)] := by
    simp only [statsForPoints, exDB8, exGrid8]
    rw [show (fun c : ℚ => List.map (fun _ => (⟨1 / 1000000000, 0, 0⟩ : Point3))
        (shiftX (buildSamplePoints [0, 1] (List.getD [⟨0, 0, 1⟩] 0 ⟨0, 0, 0⟩) ⟨0, 0, 0⟩) c)) =
      (fun _ : ℚ => [(⟨1 / 1000000000, 0, 0⟩ : Point3), ⟨1 / 1000000000, 0, 0⟩]) from rfl]
    rw [nudgeRetry_const_degenerate _ exGrid8_degenerate]
    norm_num [NudgeOutcome.vels, componentAt, calcBLpoint, List.getLastD,
      FP.div, FP.sub, FP.mul, FP.add, trapzFP]
  have hcalc : calcBoundaryLayerStats exDB8 [0, 1] 0 1 1 =
      .ok { exDB8 with wall := { exDB8.wall with fields :=
        [(FieldName.delta_displace, [FP.num 0]), (FieldName.delta_mom, [FP.num 0]),
         (FieldName.Re_theta, [FP.num 0])] } } := by
    unfold calcBoundaryLayerStats
    rw [hstats]
    rfl
  refine ⟨?_, ?_, ?_, ?_, ?_⟩
  · rw [hcalc]; rfl
  · rw [hcalc]; simp [resultFieldNames]
  · rw [hcalc]; rfl
  · rw [exDB8_nudge]; rfl
  · simp

/-- common.py line 31-32: npoints = ceil(log(maxval/minval)/log(growthrate)).
numpy natural logs; the integral float is the point count handed to geomspace. -/
noncomputable def npoints (maxval minval growthrate : ℝ) : ℕ :=
  (⌈Real.log (maxval / minval) / Real.log growthrate⌉).toNat

/-- np.geomspace(start, stop, n): n points start*(stop/start)^(k/(n-1)),
k = 0..n-1 (log-spaced between the endpoints). -/
noncomputable def geomspace (start stop : ℝ) (n : ℕ) : List ℝ :=
  (List.range n).map (fun (k : ℕ) => start * (stop / start) ^ ((k : ℝ) / ((n : ℝ) - 1)))

/-- getGeometricSeries, common.py lines 5-37: geomspace between minval and
maxval with the ceil-count above, with 0.0 prepended when include_zero.  The
function body contains no validation of its arguments. -/
noncomputable def getGeometricSeries (maxval minval growthrate : ℝ)
    (include_zero : Bool) : List ℝ :=
  if include_zero then 0 :: geomspace minval maxval (npoints maxval minval growthrate)
  else geomspace minval maxval (npoints maxval minval growthrate)

/-- The actual consecutive ratio of the generated series. -/
noncomputable def stepFactor (maxval minval growthrate : ℝ) : ℝ :=
  (maxval / minval) ^ ((1 : ℝ) / ((npoints maxval minval growthrate : ℝ) - 1))

/-- Claim C6, counterexample: with maxDistance = minDistance = 1.0 (and a
valid growth rate) getGeometricSeries raises nothing: it returns the empty
series, since ceil(log(1)/log(2)) = 0 points are requested. -/
theorem getGeometricSeries_no_validation_counterexample :
    getGeometricSeries 1 1 2 false = [] := by
  have hnp : npoints 1 1 2 = 0 := by
    unfold npoints
    norm_num
  simp [getGeometricSeries, hnp, geomspace]

/-- Claim C6 (amended): getGeometricSeries has no InvalidRangeError and no
argument validation; for equal bounds it yields the empty series, or [0.0]
when include_zero is set. -/
theorem getGeometricSeries_equal_bounds (growthrate : ℝ) (hg : 1 < growthrate) :
    getGeometricSeries 1 1 growthrate true = [0] ∧
    getGeometricSeries 1 1 growthrate false = [] := by
  have hnp : npoints 1 1 growthrate = 0 := by
    unfold npoints
    norm_num
  constructor <;> simp [getGeometricSeries, hnp, geomspace]

theorem getGeometricSeries_equal_bounds_witness :
    ((1 : ℝ) < 2) ∧
    (getGeometricSeries 1 1 2 true = [0] ∧ getGeometricSeries 1 1 2 false = []) :=
  ⟨by norm_num, getGeometricSeries_equal_bounds 2 (by norm_num)⟩

theorem npoints_four_one_two : npoints 4 1 2 = 2 := by
  unfold npoints
  have h4 : (4 : ℝ) / 1 = 2 ^ (2 : ℕ) := by norm_num
  rw [h4, Real.log_pow]
  have hl2 : Real.log 2 ≠ 0 := ne_of_gt (Real.log_pos (by norm_num))
  rw [mul_div_assoc, div_self hl2, mul_one]
  norm_num
  decide

/-- Claim C5, counterexample: at maxDistance 4, minDistance 1, growthRate 2
the series is [1, 4]: its point count is ceil(log 4 / log 2) = 2, not
ceil(...) + 1 = 3, and the consecutive ratio is 4, not the growth rate 2. -/
theorem getGeometricSeries_counterexample :
    getGeometricSeries 4 1 2 false = [1, 4]
    ∧ npoints 4 1 2 = 2
    ∧ (getGeometricSeries 4 1 2 false).length ≠ npoints 4 1 2 + 1
    ∧ ((4 : ℝ) ≠ 1 * 2) := by
  have hser : getGeometricSeries 4 1 2 false = [1, 4] := by
    simp only [getGeometricSeries, npoints_four_one_two, geomspace, if_false]
    rw [show List.range 2 = [0, 1] by decide]
    norm_num
  refine ⟨hser, npoints_four_one_two, ?_, by norm_num⟩
  rw [hser, npoints_four_one_two]
  norm_num

theorem geomspace_length (a b : ℝ) (n : ℕ) : (geomspace a b n).length = n := by
  simp [geomspace]

/-- Claim C5 (amended): for 0 < minDistance < maxDistance, growthRate > 1 and
growthRate < maxDistance/minDistance, the series (zero anchor aside) has
ceil(log(max/min)/log(r)) points (not ceil + 1), starts exactly at minDistance,
ends exactly at maxDistance, is positive and strictly increasing with the
constant consecutive ratio (max/min)^(1/(npoints-1)), a ratio at least the
requested growthRate but in general different from it; include_zero prepends
exactly one 0.0 entry. -/
theorem getGeometricSeries_props (maxval minval growthrate : ℝ)
    (hmin : 0 < minval) (hmax : minval < maxval) (hg : 1 < growthrate)
    (hg2 : growthrate < maxval / minval) :
    2 ≤ npoints maxval minval growthrate
    ∧ (getGeometricSeries maxval minval growthrate false).length =
        npoints maxval minval growthrate
    ∧ (getGeometricSeries maxval minval growthrate false).head? = some minval
    ∧ (getGeometricSeries maxval minval growthrate false).getLast? = some maxval
    ∧ (∀ e ∈ getGeometricSeries maxval minval growthrate false, 0 < e)
    ∧ growthrate ≤ stepFactor maxval minval growthrate
    ∧ (∀ k : ℕ, k + 1 < npoints maxval minval growthrate →
        (getGeometricSeries maxval minval growthrate false)[k + 1]? =
          ((getGeometricSeries maxval minval growthrate false)[k]?).map
            (fun e => e * stepFactor maxval minval growthrate))
    ∧ List.Chain' (fun a b => a < b) (getGeometricSeries maxval minval growthrate false)
    ∧ getGeometricSeries maxval minval growthrate true =
        0 :: getGeometricSeries maxval minval growthrate false := by
  have hb1 : 1 < maxval / minval := lt_trans hg hg2
  have hb0 : (0 : ℝ) < maxval / minval := lt_trans one_pos hb1
  have hlogb : 0 < Real.log (maxval / minval) := Real.log_pos hb1
  have hlogr : 0 < Real.log growthrate := Real.log_pos hg
  have hx1 : 1 < Real.log (maxval / minval) / Real.log growthrate := by
    rw [lt_div_iff₀ hlogr, one_mul]
    exact Real.log_lt_log (lt_trans zero_lt_one hg) hg2
  have hceil2 : 2 ≤ ⌈Real.log (maxval / minval) / Real.log growthrate⌉ := by
    have h1 : (1 : ℤ) < ⌈Real.log (maxval / minval) / Real.log growthrate⌉ :=
      Int.lt_ceil.mpr (by push_cast; exact hx1)
    omega
  have hn2 : 2 ≤ npoints maxval minval growthrate := by
    unfold npoints
    omega
  set n := npoints maxval minval growthrate with hn
  have hnZ : (n : ℤ) = ⌈Real.log (maxval / minval) / Real.log growthrate⌉ := by
    rw [hn]
    unfold npoints
    rw [Int.toNat_of_nonneg (by omega)]
  have hnR1 : ((n : ℝ) - 1) < Real.log (maxval / minval) / Real.log growthrate := by
    have hc := Int.ceil_lt_add_one (Real.log (maxval / minval) / Real.log growthrate)
    have hcast : ((n : ℝ)) = ((⌈Real.log (maxval / minval) / Real.log growthrate⌉ : ℤ) : ℝ) := by
      exact_mod_cast congrArg (fun z : ℤ => (z : ℝ)) hnZ
    rw [hcast]
    linarith
  have hn1pos : (0 : ℝ) < (n : ℝ) - 1 := by
    have h2 : (2 : ℝ) ≤ (n : ℝ) := by exact_mod_cast hn2
    linarith
  have hR0 : 0 < stepFactor maxval minval growthrate := Real.rpow_pos_of_pos hb0 _
  have hlogR : Real.log (stepFactor maxval minval growthrate) =
      (1 / ((n : ℝ) - 1)) * Real.log (maxval / minval) := by
    unfold stepFactor
    rw [← hn]
    exact Real.log_rpow hb0 _
  have hrleR : growthrate ≤ stepFactor maxval minval growthrate := by
    have hlog : Real.log growthrate ≤ Real.log (stepFactor maxval minval growthrate) := by
      rw [hlogR, one_div_mul_eq_div, le_div_iff₀ hn1pos]
      calc Real.log growthrate * ((n : ℝ) - 1)
          ≤ Real.log growthrate * (Real.log (maxval / minval) / Real.log growthrate) := by
            exact mul_le_mul_of_nonneg_left (le_of_lt hnR1) hlogr.le
        _ = Real.log (maxval / minval) := by
            field_simp
    calc growthrate = Real.exp (Real.log growthrate) :=
          (Real.exp_log (lt_trans zero_lt_one hg)).symm
      _ ≤ Real.exp (Real.log (stepFactor maxval minval growthrate)) :=
          Real.exp_le_exp.mpr hlog
      _ = stepFactor maxval minval growthrate := Real.exp_log hR0
  have hR1 : 1 < stepFactor maxval minval growthrate := lt_of_lt_of_le hg hrleR
  have hgs : getGeometricSeries maxval minval growthrate false = geomspace minval maxval n := by
    rw [hn]
    rfl
  have hmul : ∀ k : ℕ,
      minval * (maxval / minval) ^ ((((k + 1) : ℕ) : ℝ) / ((n : ℝ) - 1)) =
        (minval * (maxval / minval) ^ ((k : ℝ) / ((n : ℝ) - 1))) *
          stepFactor maxval minval growthrate := by
    intro k
    have hsplit : ((((k + 1) : ℕ)) : ℝ) / ((n : ℝ) - 1) =
        (k : ℝ) / ((n : ℝ) - 1) + 1 / ((n : ℝ) - 1) := by
      push_cast
      ring
    rw [hsplit, Real.rpow_add hb0, ← mul_assoc]
    unfold stepFactor
    rw [← hn]
  have hstep : ∀ k : ℕ, k + 1 < n →
      (geomspace minval maxval n)[k + 1]? =
        ((geomspace minval maxval n)[k]?).map
          (fun e => e * stepFactor maxval minval growthrate) := by
    intro k hk
    unfold geomspace
    rw [List.getElem?_map, List.getElem?_map, List.getElem?_range hk,
      List.getElem?_range (by omega)]
    simp only [Option.map_some']
    rw [hmul k]
  have hpos : ∀ e ∈ geomspace minval maxval n, 0 < e := by
    intro e he
    unfold geomspace at he
    rw [List.mem_map] at he
    obtain ⟨k, _, rfl⟩ := he
    exact mul_pos hmin (Real.rpow_pos_of_pos hb0 _)
  have hhead : (geomspace minval maxval n).head? = some minval := by
    unfold geomspace
    rw [List.head?_eq_getElem?, List.getElem?_map, List.getElem?_range (by omega)]
    simp
  have hlast : (geomspace minval maxval n).getLast? = some maxval := by
    unfold geomspace
    rw [getLast?_map, List.getLast?_eq_getElem?, List.length_range,
      List.getElem?_range (by omega : n - 1 < n)]
    simp only [Option.map_some']
    have hexp : (((n - 1 : ℕ)) : ℝ) / ((n : ℝ) - 1) = 1 := by
      rw [Nat.cast_sub (by omega), Nat.cast_one, div_self (ne_of_gt hn1pos)]
    rw [hexp, Real.rpow_one, mul_div_cancel₀ maxval (ne_of_gt hmin)]
  have hchain : List.Chain' (fun a b => a < b) (geomspace minval maxval n) := by
    rw [List.chain'_iff_get]
    intro i hi
    rw [geomspace_length] at hi
    unfold geomspace
    simp only [List.get_eq_getElem, List.getElem_map, List.getElem_range]
    rw [hmul i]
    have hipos : 0 < minval * (maxval / minval) ^ ((i : ℝ) / ((n : ℝ) - 1)) :=
      mul_pos hmin (Real.rpow_pos_of_pos hb0 _)
    exact (lt_mul_iff_one_lt_right hipos).mpr hR1
  refine ⟨hn2, ?_, ?_, ?_, ?_, hrleR, ?_, ?_, ?_⟩
  · rw [hgs]
    exact geomspace_length minval maxval n
  · rw [hgs]
    exact hhead
  · rw [hgs]
    exact hlast
  · rw [hgs]
    exact hpos
  · rw [hgs]
    exact hstep
  · rw [hgs]
    exact hchain
  · rw [hgs]
    rw [hn]
    rfl

theorem getGeometricSeries_props_witness :
    ((0 : ℝ) < 1 ∧ (1 : ℝ) < 4 ∧ (1 : ℝ) < 2 ∧ (2 : ℝ) < 4 / 1) ∧
    (2 ≤ npoints 4 1 2
    ∧ (getGeometricSeries 4 1 2 false).length = npoints 4 1 2
    ∧ (getGeometricSeries 4 1 2 false).head? = some 1
    ∧ (getGeometricSeries 4 1 2 false).getLast? = some 4
    ∧ (∀ e ∈ getGeometricSeries 4 1 2 false, 0 < e)
    ∧ (2 : ℝ) ≤ stepFactor 4 1 2
    ∧ (∀ k : ℕ, k + 1 < npoints 4 1 2 →
        (getGeometricSeries 4 1 2 false)[k + 1]? =
          ((getGeometricSeries 4 1 2 false)[k]?).map (fun e => e * stepFactor 4 1 2))
    ∧ List.Chain' (fun a b => a < b) (getGeometricSeries 4 1 2 false)
    ∧ getGeometricSeries 4 1 2 true = 0 :: getGeometricSeries 4 1 2 false) :=
  ⟨⟨by norm_num, by norm_num, by norm_num, by norm_num⟩,
    getGeometricSeries_props 4 1 2 (by norm_num) (by norm_num) (by norm_num) (by norm_num)⟩
